import Mathlib

/-
Verification of the release tool (release.py): a shallow embedding of the
file-selection and upload-orchestration workflow, with theorems checking the
natural-language specification against the code.

Modelling conventions:
- Filesystem paths are strings; a scanned file is a FileInfo carrying its
  name and byte size (os.path.getsize).
- Calls to the external client (gh) are modelled by oracles: the remote
  state is the list of existing release tags, and the outcome of each
  subprocess invocation is a CmdResult (exit code plus textual output)
  supplied by an oracle function of the file index and attempt number.
- String operations are implemented structurally over List Char so that all
  definitions evaluate by kernel reduction; String.data converts.
- User prompts loop until a valid answer is entered, so each prompt is
  modelled by the eventual valid answer it produces.
- Side effects that the claims quantify over (prompts shown, pauses, gh
  invocations) are modelled as an event trace accumulated by each flow.
-/

namespace Release

/- ----------------------------------------------------------------
String primitives (Python str operations, structural versions).
---------------------------------------------------------------- -/

/-- Character-level ASCII lowercasing, as used by Python str.lower on the
ASCII output of the external client. -/
def lowerChar (c : Char) : Char :=
  if 65 ≤ c.toNat ∧ c.toNat ≤ 90 then Char.ofNat (c.toNat + 32) else c

/-- Lowercase a string (Python str.lower, ASCII fragment). -/
def strLower (s : String) : String := ⟨s.data.map lowerChar⟩

/-- Decide whether the list needle occurs as a prefix of the list hay. -/
def listStarts [DecidableEq α] : List α → List α → Bool
  | [], _ => true
  | _ :: _, [] => false
  | a :: as, b :: bs => decide (a = b) && listStarts as bs

/-- Decide whether needle occurs contiguously inside hay (Python "in" on
strings, at the character-list level). -/
def listHas [DecidableEq α] (needle : List α) : List α → Bool
  | [] => listStarts needle []
  | b :: bs => listStarts needle (b :: bs) || listHas needle bs

/-- Python "needle in hay" for strings. -/
def strHas (hay needle : String) : Bool := listHas needle.data hay.data

/-- Classification used by the create-path retry loop (release.py line 763):
"authentication" in stderr.lower() or "permission" in stderr.lower(). -/
def isAuthMsg (s : String) : Bool :=
  strHas (strLower s) "authentication" || strHas (strLower s) "permission"

/-- Python str.endswith for the tag safety check. -/
def strEnds (s suffix : String) : Bool :=
  listStarts suffix.data.reverse s.data.reverse

/-- Python str.strip: drop whitespace from both ends. -/
def strStrip (s : String) : String :=
  ⟨((s.data.dropWhile Char.isWhitespace).reverse.dropWhile Char.isWhitespace).reverse⟩

/-- Helper of pySplitWs: accumulate the current word (reversed) while
scanning. -/
def wsSplitGo : List Char → List Char → List String
  | [], [] => []
  | [], cur => [⟨cur.reverse⟩]
  | c :: rest, cur =>
    if c.isWhitespace then
      match cur with
      | [] => wsSplitGo rest []
      | _ => ⟨cur.reverse⟩ :: wsSplitGo rest []
    else wsSplitGo rest (c :: cur)

/-- Python str.split() with no argument: split on whitespace runs, dropping
empty pieces. -/
def pySplitWs (s : String) : List String := wsSplitGo s.data []

/-- Helper of splitOnDash: accumulate the current piece (reversed). -/
def splitOnDashGo : List Char → List Char → List (List Char)
  | [], cur => [cur.reverse]
  | '-' :: rest, cur => cur.reverse :: splitOnDashGo rest []
  | c :: rest, cur => splitOnDashGo rest (c :: cur)

/-- Python str.split('-'): split on every dash, keeping empty pieces. -/
def splitOnDash (cs : List Char) : List (List Char) := splitOnDashGo cs []

/- ----------------------------------------------------------------
Decimal representation of naturals, for f-string formatting of the version
counter (f"{tag}-v{version}") and for Python int() parsing.
---------------------------------------------------------------- -/

/-- Character of a single decimal digit. -/
def digChar (d : Nat) : Char :=
  match d with
  | 0 => '0' | 1 => '1' | 2 => '2' | 3 => '3' | 4 => '4'
  | 5 => '5' | 6 => '6' | 7 => '7' | 8 => '8' | 9 => '9'
  | _ => '*'

/-- Numeric value of a digit character. -/
def digVal (c : Char) : Nat := c.toNat - 48

/-- Little-endian decimal digits of n; the fuel argument bounds the number of
divisions by 10 and any fuel above n suffices. -/
def natDigitsRev : Nat → Nat → List Char
  | 0, _ => []
  | fuel + 1, n => if n < 10 then [digChar n] else digChar (n % 10) :: natDigitsRev fuel (n / 10)

/-- Decimal representation of a natural number (Python str(int)). -/
def natRepr (n : Nat) : String := ⟨(natDigitsRev (n + 1) n).reverse⟩

/-- Value of a little-endian digit-character list. -/
def charsVal : List Char → Nat
  | [] => 0
  | c :: cs => digVal c + 10 * charsVal cs

/-- Digit scanner of Python int(): after the first digit, digits may be
separated by single underscores. -/
def pyDigitsCore : List Char → Nat → Option Nat
  | [], acc => some acc
  | '_' :: c :: rest, acc =>
    if c.isDigit then pyDigitsCore rest (acc * 10 + digVal c) else none
  | c :: rest, acc =>
    if c.isDigit then pyDigitsCore rest (acc * 10 + digVal c) else none

/-- Unsigned part of Python int(): at least one leading digit. -/
def pyNatOfChars : List Char → Option Nat
  | [] => none
  | c :: rest => if c.isDigit then pyDigitsCore rest (digVal c) else none

/-- Python int(str) on a whitespace-free token: optional sign, then decimal
digits with optional single underscores between digits; anything else raises
ValueError, modelled as none. -/
def pyInt (s : String) : Option Int :=
  match s.data with
  | '+' :: rest => (pyNatOfChars rest).map (fun n => (n : Int))
  | '-' :: rest => (pyNatOfChars rest).map (fun n => -(n : Int))
  | rest => (pyNatOfChars rest).map (fun n => (n : Int))

/- ----------------------------------------------------------------
Release Target Resolver: tag collision handling (release.py 64-83).
check_tag_exists runs "gh release view tag"; the remote state is the list of
existing release tags, so the check is list membership.
---------------------------------------------------------------- -/

/-- Model of check_tag_exists: "gh release view tag" exits 0 exactly when the
tag names an existing release. -/
def check_tag_exists (existing : List String) (tag : String) : Bool :=
  decide (tag ∈ existing)

/-- Candidate tag f"{tag}-v{version}". -/
def tagV (tag : String) (version : Nat) : String := tag ++ "-v" ++ natRepr version

/-- The while loop of get_unique_tag: starting at version v, keep incrementing
while the candidate tag exists. The fuel only bounds the iteration count; by
the pigeonhole argument proved below, existing.length + 1 iterations always
reach a free candidate, exactly as the unbounded Python loop does. -/
def versionSearchGo (existing : List String) (tag : String) : Nat → Nat → Nat
  | v, 0 => v
  | v, fuel + 1 =>
    if check_tag_exists existing (tagV tag v) then versionSearchGo existing tag (v + 1) fuel
    else v

/-- Model of get_unique_tag (release.py 69-83). -/
def get_unique_tag (existing : List String) (tag : String) : String :=
  if check_tag_exists existing tag then
    tagV tag (versionSearchGo existing tag 2 (existing.length + 1))
  else tag

/-- Number of "gh release view" calls made by get_unique_tag: one for the
input tag, then one per visited version candidate. -/
def get_unique_tag_view_calls (existing : List String) (tag : String) : Nat :=
  if check_tag_exists existing tag then
    versionSearchGo existing tag 2 (existing.length + 1)
  else 1

/-- Lexicographic (code-point) order on strings, Python string comparison.
Modelled from the spec: the claim speaks of the "lexicographically first"
candidate tag, which for Python strings is code-point lexicographic order. -/
def lexLt : List Char → List Char → Bool
  | [], [] => false
  | [], _ :: _ => true
  | _ :: _, [] => false
  | a :: as, b :: bs => if a < b then true else if b < a then false else lexLt as bs

/-- Modelled from the spec: the property claimed of get_unique_tag when the
input tag collides, namely that the result is the lexicographically first
candidate of the form tag-v{n}, n ≥ 2, outside the existing set. -/
def isLexFirstCandidate (existing : List String) (tag result : String) : Prop :=
  (∃ n, 2 ≤ n ∧ result = tagV tag n ∧ result ∉ existing) ∧
  ∀ n, 2 ≤ n → tagV tag n ∉ existing → lexLt (tagV tag n).data result.data = false

/- ----------------------------------------------------------------
Tag derivation from an archive filename (release.py 118-123):
re.search(r"(.*?-.*?-\d+).*", basename). With the lazy quantifiers, group 1
is built from the first dash, the first later dash followed by a digit, and
the maximal digit run after it; if no dash/dash-digit decomposition exists
anywhere the match fails.
---------------------------------------------------------------- -/

/-- Model of os.path.basename: the part after the last slash. -/
def baseName (s : String) : String :=
  ⟨(s.data.reverse.takeWhile (fun c => decide (c ≠ '/'))).reverse⟩

/-- Split at the first dash: the characters before it and those after it. -/
def splitAtFirstDash : List Char → Option (List Char × List Char)
  | [] => none
  | '-' :: rest => some ([], rest)
  | c :: rest => (splitAtFirstDash rest).map (fun p => (c :: p.1, p.2))

/-- Shortest prefix after which a dash immediately followed by a digit
occurs; returns that prefix and the remainder starting at the digit. -/
def findDashDigit : List Char → Option (List Char × List Char)
  | [] => none
  | '-' :: c :: rest =>
    if c.isDigit then some ([], c :: rest)
    else (findDashDigit (c :: rest)).map (fun p => ('-' :: p.1, p.2))
  | c :: rest => (findDashDigit rest).map (fun p => (c :: p.1, p.2))

/-- Model of extract_tag_from_zip (release.py 118-123). -/
def extract_tag_from_zip (zip_file : String) : Option String :=
  match splitAtFirstDash (baseName zip_file).data with
  | none => none
  | some (a, rest1) =>
    match findDashDigit rest1 with
    | none => none
    | some (b, rest2) =>
      some ⟨a ++ '-' :: (b ++ '-' :: rest2.takeWhile Char.isDigit)⟩

/- ----------------------------------------------------------------
Artifacts and checksum attachment (release.py 132-145).
---------------------------------------------------------------- -/

/-- Scanned artifact: a path in the working directory plus its byte size. -/
structure FileInfo where
  name : String
  size : Nat
deriving DecidableEq

/-- Name of the companion checksum file of an archive,
Path(f"{zip_file}.sha256sum"). -/
def shaName (z : FileInfo) : String := z.name ++ ".sha256sum"

/-- Model of get_matching_sha (release.py 132-135): the constructed checksum
path if it is among the scanned checksum files, else nothing. -/
def get_matching_sha (z : FileInfo) (sha_files : List FileInfo) : Option FileInfo :=
  sha_files.find? (fun s => decide (s.name = shaName z))

/-- Model of add_sha_files (release.py 137-145): starting from a copy of the
selection, walk the scanned archive list and append the matching checksum
file of every archive that is selected. -/
def add_sha_files (files_to_release zip_files sha_files : List FileInfo) : List FileInfo :=
  zip_files.foldl
    (fun result z =>
      if z ∈ files_to_release then
        match get_matching_sha z sha_files with
        | some s => result ++ [s]
        | none => result
      else result)
    files_to_release

/-- The checksum files appended by add_sha_files, in scanned-archive order. -/
def shaExtras (files_to_release zip_files sha_files : List FileInfo) : List FileInfo :=
  (zip_files.filter (fun z => decide (z ∈ files_to_release))).filterMap
    (fun z => get_matching_sha z sha_files)

/-- Decide whether b occurs immediately after a somewhere in the list. -/
def immediatelyAfter (l : List FileInfo) (a b : FileInfo) : Bool :=
  (l.zip l.tail).any (fun p => decide (p.1 = a) && decide (p.2 = b))

/-- Total byte size of an upload plan. -/
def totalSizeOf (files : List FileInfo) : Nat := (files.map FileInfo.size).sum

/- ----------------------------------------------------------------
Event traces: the observable actions a flow performs, in order.
---------------------------------------------------------------- -/

/-- Observable actions: gh invocations (authCheck, repoCheck, releaseList,
releaseView, releaseCreate for the empty-release creation, releaseUpload per
per-file upload invocation, directCreate for the combined fallback command),
decision prompts shown to the user (menuAsk), and the bare
"Press Enter to continue" pauses (pause). -/
inductive Ev
  | authCheck | repoCheck | releaseList | releaseView
  | releaseCreate | releaseUpload | directCreate
  | menuAsk | pause
deriving DecidableEq

/-- Outcome of one external-client subprocess invocation: exit code and the
textual output used for classification and error reporting. -/
structure CmdResult where
  code : Nat
  msg : String
deriving DecidableEq

/- ----------------------------------------------------------------
Selection Planner (release.py 481-590).
---------------------------------------------------------------- -/

/-- Validated answer to the "Release options" menu (the prompt loops until
one of 1-4 is entered). -/
inductive SelChoice
  | allFiles | imgOnly | zipOnly | manual
deriving DecidableEq

/-- Indices contributed by one selector token (release.py 539-564): a range
start-end keeps an in-bounds, ordered range and is otherwise skipped; a
single number keeps an in-bounds index and is otherwise skipped; tokens that
fail Python int() are skipped. All indices are converted to 0-based. -/
def parseToken (n : Nat) (tok : String) : List Nat :=
  if tok.data.contains '-' then
    match splitOnDash tok.data with
    | [s1, s2] =>
      match pyInt ⟨s1⟩, pyInt ⟨s2⟩ with
      | some a, some b =>
        if 0 ≤ a - 1 ∧ a - 1 ≤ b - 1 ∧ b - 1 < (n : Int) then
          List.range' (a - 1).toNat ((b - 1).toNat - (a - 1).toNat + 1)
        else []
      | _, _ => []
    | _ => []
  else
    match pyInt tok with
    | some v => if 0 ≤ v - 1 ∧ v - 1 < (n : Int) then [(v - 1).toNat] else []
    | none => []

/-- All indices selected by a manual selector string over an n-item list. -/
def parseSelection (n : Nat) (s : String) : List Nat :=
  ((pySplitWs s).map (parseToken n)).flatten

/-- Python sorted(set(...)) on indices: duplicates removed, ascending. -/
def sortedDedup (l : List Nat) : List Nat := List.insertionSort (· ≤ ·) l.dedup

/-- Model of select_files_for_release (release.py 481-590), with its prompt
events. The final add_sha_files call attaches matching checksum files. -/
def select_files_for_release (zip_files img_files sha_files : List FileInfo)
    (choice : SelChoice) (manualInput : String) : List FileInfo × List Ev :=
  match choice with
  | .allFiles => (add_sha_files (zip_files ++ img_files) zip_files sha_files, [Ev.menuAsk])
  | .imgOnly => (add_sha_files img_files zip_files sha_files, [Ev.menuAsk])
  | .zipOnly => (add_sha_files zip_files zip_files sha_files, [Ev.menuAsk])
  | .manual =>
    let allFiles := zip_files ++ img_files
    let sel :=
      if strStrip manualInput = "" then zip_files ++ img_files
      else
        let picked := (sortedDedup (parseSelection allFiles.length manualInput)).filterMap
          (fun i => allFiles[i]?)
        if picked = [] then zip_files ++ img_files else picked
    (add_sha_files sel zip_files sha_files, [Ev.menuAsk, Ev.menuAsk])

/- ----------------------------------------------------------------
Upload Orchestrator, existing-release path (release.py 187-290).
---------------------------------------------------------------- -/

/-- Retry loop of upload_to_existing_release (release.py 252-274): attempts
are numbered from a; the fuel is the number of attempts still allowed
(max_retries = 3 at the initial call). Returns the number of the last
attempt made and whether it succeeded. Note: every failure is retried here,
regardless of its message. -/
def goAttempts (up : Nat → CmdResult) (a : Nat) : Nat → Nat × Bool
  | 0 => (a - 1, false)
  | fuel + 1 => if (up a).code = 0 then (a, true) else goAttempts up (a + 1) fuel

/-- Result of the per-file upload loop of upload_to_existing_release. -/
structure ExistRun where
  ok : Bool
  totalUploaded : Nat
  invocations : List Nat
  events : List Ev
deriving DecidableEq

/-- Per-file loop of upload_to_existing_release (release.py 241-277): files
are processed in order; on success the file size is added to the uploaded
total; a file failing all three attempts stops the loop, leaving later
files unattempted. The oracle up gives the outcome of attempt a on file i. -/
def uploadLoopExisting (up : Nat → Nat → CmdResult) : List FileInfo → Nat → Nat → ExistRun
  | [], _, acc => { ok := true, totalUploaded := acc, invocations := [], events := [] }
  | f :: fs, i, acc =>
    let r := goAttempts (up i) 1 3
    if r.2 then
      let rest := uploadLoopExisting up fs (i + 1) (acc + f.size)
      { ok := rest.ok, totalUploaded := rest.totalUploaded,
        invocations := r.1 :: rest.invocations,
        events := List.replicate r.1 Ev.releaseUpload ++ rest.events }
    else
      { ok := false, totalUploaded := acc, invocations := [r.1],
        events := List.replicate r.1 Ev.releaseUpload }

/-- Tag safety check of upload_to_existing_release (release.py 190): the tag
looks like a filename. -/
def tagLooksLikeFile (tag : String) : Bool :=
  strEnds tag ".zip" || strEnds tag ".img" || strEnds tag ".sha256sum"

/-- Overall result of upload_to_existing_release: the boolean the function
returns, the upload-loop details when the loop ran, the total size printed
by the completion report when it succeeded, and the event trace. -/
structure UploadExistingOutcome where
  ret : Bool
  loopRun : Option ExistRun
  reportedTotal : Option Nat
  events : List Ev
deriving DecidableEq

/-- Model of upload_to_existing_release (release.py 187-290): filename-shaped
tags prompt for a correction (empty correction cancels); the tag is then
verified against the remote state; the user confirms; then files are
uploaded one by one with the retry loop above. -/
def upload_to_existing_release (existingTags : List String) (tag correction : String)
    (confirm : Bool) (files : List FileInfo) (up : Nat → Nat → CmdResult) :
    UploadExistingOutcome :=
  let fixup : Option (String × List Ev) :=
    if tagLooksLikeFile tag then
      if correction = "" then none else some (correction, [Ev.menuAsk])
    else some (tag, [])
  match fixup with
  | none => { ret := false, loopRun := none, reportedTotal := none, events := [Ev.menuAsk] }
  | some (tag', evs0) =>
    if check_tag_exists existingTags tag' then
      if confirm then
        let r := uploadLoopExisting up files 0 0
        { ret := r.ok, loopRun := some r,
          reportedTotal := if r.ok then some (totalSizeOf files) else none,
          events := evs0 ++ [Ev.releaseView, Ev.menuAsk] ++ r.events }
      else
        { ret := false, loopRun := none, reportedTotal := none,
          events := evs0 ++ [Ev.releaseView, Ev.menuAsk] }
    else
      { ret := false, loopRun := none, reportedTotal := none,
        events := evs0 ++ [Ev.releaseView] }

/- ----------------------------------------------------------------
Upload Orchestrator, create path (release.py 592-801) and the combined
fallback command (release.py 803-851).
---------------------------------------------------------------- -/

/-- Outcome of the per-file retry loop of create_release_with_progress. -/
inductive FileRes
  | okF (invocations : Nat) (delta : Nat)
  | authEx (delta : Nat)
  | fatal (msg : String) (code : Nat) (invocations : Nat) (delta : Nat)
deriving DecidableEq

/-- Per-file retry loop of create_release_with_progress (release.py 684-795):
while retry_count < 3, invoke the upload; exit code 0 breaks out of the loop
(skipping the accounting below the branch); an authentication/permission
message increments retry_count, falls through to the accounting and retries;
any other failure returns immediately from the whole function. The delta
accumulates the additions made to total_uploaded, which the source performs
on the fall-through path only, i.e. once per authentication-classified
failure and never on success. inv numbers the invocation being made; the
fuel is 3 - retry_count. -/
def createFileGo (up : Nat → CmdResult) (size : Nat) (inv delta : Nat) : Nat → FileRes
  | 0 => .authEx delta
  | fuel + 1 =>
    let r := up inv
    if r.code = 0 then .okF inv delta
    else if isAuthMsg r.msg then createFileGo up size (inv + 1) (delta + size) fuel
    else .fatal r.msg r.code inv delta

/-- Aggregate state of the create-path upload loop. -/
structure LoopOut where
  totalUploaded : Nat
  invocations : List Nat
  failed : Option (String × Nat)
  events : List Ev
deriving DecidableEq

/-- Create-path upload loop over the files (release.py 668-795): a fatal
(non-authentication) failure returns its stderr and exit code; a file whose
three attempts were all classified as authentication failures returns
("Authentication failure", 1); otherwise the loop continues. -/
def createUploadLoop (up : Nat → Nat → CmdResult) : List FileInfo → Nat → Nat → LoopOut
  | [], _, acc => { totalUploaded := acc, invocations := [], failed := none, events := [] }
  | f :: fs, i, acc =>
    match createFileGo (up i) f.size 1 0 3 with
    | .okF inv delta =>
      let rest := createUploadLoop up fs (i + 1) (acc + delta)
      { totalUploaded := rest.totalUploaded, invocations := inv :: rest.invocations,
        failed := rest.failed,
        events := List.replicate inv Ev.releaseUpload ++ rest.events }
    | .authEx delta =>
      { totalUploaded := acc + delta, invocations := [3],
        failed := some ("Authentication failure", 1),
        events := List.replicate 3 Ev.releaseUpload }
    | .fatal msg code inv delta =>
      { totalUploaded := acc + delta, invocations := [inv],
        failed := some (msg, code),
        events := List.replicate inv Ev.releaseUpload }

/-- Overall result of create_release_with_progress: the (message, exit code)
pair the function returns, the accounting state, the total size printed by
the completion report when every file was uploaded, and the event trace. -/
structure CreateRun where
  retMsg : String
  retCode : Nat
  totalUploaded : Nat
  invocations : List Nat
  reportedTotal : Option Nat
  events : List Ev
deriving DecidableEq

/-- Model of create_release_with_progress (release.py 592-801): first create
the empty release (carrying title and notes); if that invocation fails,
return its stderr without attempting any upload; otherwise upload each file
with the per-file retry loop. -/
def create_release_with_progress (createOutcome : CmdResult) (files : List FileInfo)
    (up : Nat → Nat → CmdResult) : CreateRun :=
  if createOutcome.code ≠ 0 then
    { retMsg := "Creation failed: " ++ createOutcome.msg, retCode := createOutcome.code,
      totalUploaded := 0, invocations := [], reportedTotal := none,
      events := [Ev.releaseCreate] }
  else
    let out := createUploadLoop up files 0 0
    match out.failed with
    | some fc =>
      { retMsg := fc.1, retCode := fc.2, totalUploaded := out.totalUploaded,
        invocations := out.invocations, reportedTotal := none,
        events := Ev.releaseCreate :: out.events }
    | none =>
      { retMsg := "Success", retCode := 0, totalUploaded := out.totalUploaded,
        invocations := out.invocations, reportedTotal := some (totalSizeOf files),
        events := Ev.releaseCreate :: out.events }

/-- Model of create_release_with_direct_command (release.py 803-851): a
single combined invocation that creates the release with every file of the
plan attached at once; its outcome is reported as-is, with "Success" on
exit code 0. -/
def create_release_with_direct_command (direct : CmdResult) (_files : List FileInfo) :
    CmdResult × List Ev :=
  (if direct.code ≠ 0 then { code := direct.code, msg := direct.msg }
   else { code := 0, msg := "Success" },
   [Ev.directCreate])

/-- Combined create orchestration used by both front ends (release.py
458-465 and 1003-1010): run create_release_with_progress, and on any
nonzero exit code fall back to the combined direct command with the same
file list. -/
structure CreateFlow where
  firstRun : CreateRun
  fallbackUsed : Bool
  directFiles : Option (List FileInfo)
  finalCode : Nat
  finalMsg : String
  events : List Ev
deriving DecidableEq

/-- Runs the create orchestration with fallback. -/
def runCreateFlow (createOutcome direct : CmdResult) (files : List FileInfo)
    (up : Nat → Nat → CmdResult) : CreateFlow :=
  let r1 := create_release_with_progress createOutcome files up
  if r1.retCode ≠ 0 then
    let r2 := create_release_with_direct_command direct files
    { firstRun := r1, fallbackUsed := true, directFiles := some files,
      finalCode := r2.1.code, finalMsg := r2.1.msg, events := r1.events ++ r2.2 }
  else
    { firstRun := r1, fallbackUsed := false, directFiles := none,
      finalCode := 0, finalMsg := r1.retMsg, events := r1.events }

/- ----------------------------------------------------------------
Front ends: flag-driven main (release.py 888-1025) and the interactive
shell (release.py 292-479).
---------------------------------------------------------------- -/

/-- Parsed command-line arguments (release.py 898-905). -/
structure Args where
  allF : Bool
  img : Bool
  zipF : Bool
  notes : List String
  yes : Bool
  upload : Option String
deriving DecidableEq

/-- Python "not any(vars(args).values())": no flag was given. -/
def argsEmpty (a : Args) : Bool :=
  !a.allF && !a.img && !a.zipF && decide (a.notes = []) && !a.yes && decide (a.upload = none)

/-- One row of the parsed "gh release list" output (release.py 147-185). -/
structure RelEntry where
  file : String
  tag : String
  title : String
  date : String
deriving DecidableEq

/-- Ambient state of one run: the scanned files, the remote tag set, the
results of the environment checks, and the oracles for subprocess outcomes
and flag-mode user answers. -/
structure Env where
  zipFiles : List FileInfo
  imgFiles : List FileInfo
  shaFiles : List FileInfo
  existingTags : List String
  authOk : Bool
  repoOk : Bool
  fetchOk : Bool
  recent : List RelEntry
  confirmAnswer : Bool
  correction : String
  createOutcome : CmdResult
  directOutcome : CmdResult
  up : Nat → Nat → CmdResult

/-- Eventual valid answers to the interactive prompts. -/
structure InteractiveIn where
  actionUpload : Bool
  releaseChoice : Nat
  manualTag : String
  changeTag : Bool
  typedTag : String
  changeTitle : Bool
  typedTitle : String
  tagWhenNoZips : String
  titleWhenNoZips : String
  notes : List String
  selChoice : SelChoice
  manualSelection : String
  confirm : Bool

/-- Result of a front-end run: the process exit code, the event trace, the
upload plan handed to an orchestrator invocation (if one was made), and
whether the combined fallback command was used. -/
structure MainRun where
  exitCode : Nat
  events : List Ev
  submitted : Option (List FileInfo)
  fallbackUsed : Bool
deriving DecidableEq

/-- Prompt events of get_user_notes(True) (release.py 85-102): one prompt
per entered note plus the terminating one, at most five. -/
def notesEvents (entered : List String) : List Ev :=
  List.replicate (min (entered.length + 1) 5) Ev.menuAsk

/-- Release-notes text (release.py 85-102 and 983-987): entered lines are
bulleted; no lines yield the placeholder. -/
def notesText (entered : List String) : String :=
  if entered = [] then "- Auto-generated release"
  else String.intercalate "\n" ((entered.take 5).map (fun n => "- " ++ n))

/-- Interactive create branch (release.py 395-479): resolve tag and title
from the first archive (or prompts), deduplicate the tag, collect notes,
select files, reject an empty selection, confirm, then run the create
orchestration with fallback. -/
def interactiveCreate (env : Env) (inp : InteractiveIn) : MainRun :=
  let tagTitle :=
    match env.zipFiles with
    | z :: _ =>
      match extract_tag_from_zip z.name with
      | some t =>
        if inp.changeTag then (inp.typedTag, [Ev.menuAsk, Ev.menuAsk])
        else (t, [Ev.menuAsk])
      | none => (inp.typedTag, [Ev.menuAsk])
    | [] => (inp.tagWhenNoZips, [Ev.menuAsk, Ev.menuAsk])
  let evsTitle : List Ev := if inp.changeTitle then [Ev.menuAsk, Ev.menuAsk] else [Ev.menuAsk]
  let evsTag := List.replicate (get_unique_tag_view_calls env.existingTags tagTitle.1) Ev.releaseView
  let sel := select_files_for_release env.zipFiles env.imgFiles env.shaFiles
    inp.selChoice inp.manualSelection
  let evsPre := tagTitle.2 ++ evsTitle ++ evsTag ++ notesEvents inp.notes ++ sel.2
  if sel.1 = [] then { exitCode := 1, events := evsPre ++ [Ev.pause], submitted := none, fallbackUsed := false }
  else if inp.confirm then
    let cf := runCreateFlow env.createOutcome env.directOutcome sel.1 env.up
    { exitCode := if cf.finalCode = 0 then 0 else 1,
      events := evsPre ++ [Ev.menuAsk] ++ cf.events ++ [Ev.pause],
      submitted := some sel.1, fallbackUsed := cf.fallbackUsed }
  else { exitCode := 0, events := evsPre ++ [Ev.menuAsk, Ev.pause], submitted := none, fallbackUsed := false }

/-- Model of interactive_mode (release.py 292-479). An empty scan aborts at
once; choosing upload-to-existing fetches recent releases (falling back to
the create branch when none are found), resolves a tag, verifies it,
selects files, rejects an empty selection and uploads; choosing create runs
the create branch. -/
def interactive_mode (env : Env) (inp : InteractiveIn) : MainRun :=
  if env.zipFiles = [] ∧ env.imgFiles = [] then
    { exitCode := 1, events := [Ev.pause], submitted := none, fallbackUsed := false }
  else
    let evsA := [Ev.menuAsk]
    if inp.actionUpload then
      let releases := if env.fetchOk then env.recent else []
      let evsF := [Ev.releaseList]
      if releases = [] then
        let r := interactiveCreate env inp
        { exitCode := r.exitCode, events := evsA ++ evsF ++ r.events,
          submitted := r.submitted, fallbackUsed := r.fallbackUsed }
      else
        let tagT :=
          if 1 ≤ inp.releaseChoice ∧ inp.releaseChoice ≤ releases.length then
            ((releases.getD (inp.releaseChoice - 1) ⟨"", "", "", ""⟩).tag, [Ev.menuAsk])
          else (inp.manualTag, [Ev.menuAsk, Ev.menuAsk])
        let evs1 := evsA ++ evsF ++ tagT.2 ++ [Ev.releaseView]
        if check_tag_exists env.existingTags tagT.1 then
          let sel := select_files_for_release env.zipFiles env.imgFiles env.shaFiles
            inp.selChoice inp.manualSelection
          if sel.1 = [] then
            { exitCode := 1, events := evs1 ++ sel.2 ++ [Ev.pause],
              submitted := none, fallbackUsed := false }
          else
            let r := upload_to_existing_release env.existingTags tagT.1 env.correction
              inp.confirm sel.1 env.up
            { exitCode := if r.ret then 0 else 1,
              events := evs1 ++ sel.2 ++ r.events ++ [Ev.pause],
              submitted := some sel.1, fallbackUsed := false }
        else
          { exitCode := 1, events := evs1 ++ [Ev.pause], submitted := none, fallbackUsed := false }
    else
      let r := interactiveCreate env inp
      { exitCode := r.exitCode, events := evsA ++ r.events,
        submitted := r.submitted, fallbackUsed := r.fallbackUsed }

/-- Flag-driven body of main after the environment checks (release.py
914-1025): scan, category filter, checksum attachment, empty-plan check,
then either upload-to-existing (verifying the tag first) or tag derivation,
deduplication, confirmation and the create orchestration. -/
def flagBody (args : Args) (env : Env) : MainRun :=
  if env.zipFiles = [] ∧ env.imgFiles = [] then
    { exitCode := 1, events := [], submitted := none, fallbackUsed := false }
  else
    let base := if args.img then env.imgFiles
      else if args.zipF then env.zipFiles
      else env.zipFiles ++ env.imgFiles
    let files := add_sha_files base env.zipFiles env.shaFiles
    if files = [] then
      { exitCode := 1, events := [], submitted := none, fallbackUsed := false }
    else
      match args.upload with
      | some t =>
        if check_tag_exists env.existingTags t then
          let r := upload_to_existing_release env.existingTags t env.correction
            env.confirmAnswer files env.up
          { exitCode := if r.ret then 0 else 1, events := Ev.releaseView :: r.events,
            submitted := some files, fallbackUsed := false }
        else
          { exitCode := 1, events := [Ev.releaseView], submitted := none, fallbackUsed := false }
      | none =>
        let tagOpt := match env.zipFiles with
          | [] => none
          | z :: _ => extract_tag_from_zip z.name
        match tagOpt with
        | none => { exitCode := 1, events := [], submitted := none, fallbackUsed := false }
        | some t =>
          let evsTag := List.replicate (get_unique_tag_view_calls env.existingTags t) Ev.releaseView
          let evsConfirm : List Ev := if args.yes then [] else [Ev.menuAsk]
          if args.yes || env.confirmAnswer then
            let cf := runCreateFlow env.createOutcome env.directOutcome files env.up
            { exitCode := if cf.finalCode = 0 then 0 else 1,
              events := evsTag ++ evsConfirm ++ cf.events,
              submitted := some files, fallbackUsed := cf.fallbackUsed }
          else
            { exitCode := 0, events := evsTag ++ evsConfirm,
              submitted := none, fallbackUsed := false }

/-- Model of main (release.py 888-1025): authentication check, repository
check, then the interactive shell when no flag was given, else the
flag-driven body. -/
def main (args : Args) (env : Env) (inp : InteractiveIn) : MainRun :=
  if !env.authOk then
    { exitCode := 1, events := [Ev.authCheck], submitted := none, fallbackUsed := false }
  else if !env.repoOk then
    { exitCode := 1, events := [Ev.authCheck, Ev.repoCheck], submitted := none, fallbackUsed := false }
  else
    let r := if argsEmpty args then interactive_mode env inp else flagBody args env
    { exitCode := r.exitCode, events := Ev.authCheck :: Ev.repoCheck :: r.events,
      submitted := r.submitted, fallbackUsed := r.fallbackUsed }

/- ----------------------------------------------------------------
Concrete fixtures used by witnesses and counterexamples.
---------------------------------------------------------------- -/

/-- Fixture: a successful subprocess outcome. -/
def zeroCmd : CmdResult := ⟨0, "ok"⟩

/-- Fixture: an upload oracle where every invocation succeeds. -/
def upOk : Nat → Nat → CmdResult := fun _ _ => ⟨0, "ok"⟩

/-- Fixture: interactive answers that pick the create branch with default
choices. -/
def idleIn : InteractiveIn :=
  ⟨false, 0, "", false, "", false, "", "", "", [], SelChoice.allFiles, "", true⟩

/-- Fixture: a working directory with no archive and no image files. -/
def emptyScanEnv : Env :=
  ⟨[], [], [], [], true, true, false, [], false, "", zeroCmd, zeroCmd, upOk⟩

/-- Fixture: one archive, the release tag "t" existing remotely, and a user
who declines the confirmation prompt. -/
def declineEnv : Env :=
  ⟨[⟨"a.zip", 5⟩], [], [], ["t"], true, true, false, [], false, "", zeroCmd, zeroCmd, upOk⟩

/-- Fixture: one archive with a tag-shaped name and a user who declines the
create-mode confirmation prompt. -/
def createDeclineEnv : Env :=
  ⟨[⟨"ax-1.0-20250101.zip", 5⟩], [], [], [], true, true, false, [], false, "",
   zeroCmd, zeroCmd, upOk⟩

/-- Fixture: one archive with a tag-shaped name and every remote operation
succeeding. -/
def happyEnv : Env :=
  ⟨[⟨"ax-1.0-20250101.zip", 5⟩], [], [], [], true, true, false, [], true, "",
   zeroCmd, zeroCmd, upOk⟩

/- ================================================================
Theorems.
================================================================ -/

theorem digVal_digChar : ∀ d, d < 10 → digVal (digChar d) = d := by decide

theorem charsVal_natDigitsRev : ∀ fuel n, n < fuel → charsVal (natDigitsRev fuel n) = n := by
  intro fuel
  induction fuel with
  | zero => intro n h; omega
  | succ f ih =>
    intro n h
    by_cases h10 : n < 10
    · simp [natDigitsRev, h10, charsVal, digVal_digChar n h10]
    · have hdiv : n / 10 < f := by
        have h1 : n / 10 < n := Nat.div_lt_self (by omega) (by omega)
        omega
      simp only [natDigitsRev, if_neg h10, charsVal, ih _ hdiv,
        digVal_digChar (n % 10) (Nat.mod_lt _ (by omega))]
      omega

theorem natRepr_injective : Function.Injective natRepr := by
  intro a b h
  have hdata : (natDigitsRev (a + 1) a).reverse = (natDigitsRev (b + 1) b).reverse :=
    congrArg String.data h
  have h2 : natDigitsRev (a + 1) a = natDigitsRev (b + 1) b :=
    List.reverse_injective hdata
  have := charsVal_natDigitsRev (a + 1) a (Nat.lt_succ_self a)
  rw [h2, charsVal_natDigitsRev (b + 1) b (Nat.lt_succ_self b)] at this
  omega

theorem tagV_injective (tag : String) : Function.Injective (tagV tag) := by
  intro a b h
  have hdata : (tag ++ "-v").data ++ (natRepr a).data = (tag ++ "-v").data ++ (natRepr b).data := by
    have h1 : (tag ++ "-v" ++ natRepr a).data = (tag ++ "-v" ++ natRepr b).data :=
      congrArg String.data h
    simpa [String.data_append] using h1
  have h2 : (natRepr a).data = (natRepr b).data := List.append_cancel_left hdata
  exact natRepr_injective (by cases hra : natRepr a; cases hrb : natRepr b; simp_all)

/-- Pigeonhole: among the existing.length + 1 candidate versions v, v+1, ...,
v + existing.length, at least one yields a tag not in the existing list. -/
theorem exists_free_version (existing : List String) (tag : String) (v : Nat) :
    ∃ k, k ≤ existing.length ∧ tagV tag (v + k) ∉ existing := by
  by_contra hall
  push_neg at hall
  have hsub : (Finset.range (existing.length + 1)).image (fun k => tagV tag (v + k)) ⊆
      existing.toFinset := by
    intro s hs
    simp only [Finset.mem_image, Finset.mem_range] at hs
    obtain ⟨k, hk, rfl⟩ := hs
    exact List.mem_toFinset.2 (hall k (by omega))
  have hinj : Function.Injective (fun k => tagV tag (v + k)) := by
    intro a b h
    have := tagV_injective tag h
    omega
  have hcard := Finset.card_le_card hsub
  rw [Finset.card_image_of_injective _ hinj, Finset.card_range] at hcard
  have := List.toFinset_card_le existing
  omega

/-- The search loop returns the least free version at or above its start, as
long as a free version lies within its fuel. -/
theorem versionSearchGo_spec (existing : List String) (tag : String) :
    ∀ fuel v, (∃ k < fuel, tagV tag (v + k) ∉ existing) →
      tagV tag (versionSearchGo existing tag v fuel) ∉ existing ∧
      v ≤ versionSearchGo existing tag v fuel ∧
      ∀ m, v ≤ m → m < versionSearchGo existing tag v fuel → tagV tag m ∈ existing := by
  intro fuel
  induction fuel with
  | zero => intro v ⟨k, hk, _⟩; omega
  | succ f ih =>
    intro v ⟨k, hk, hfree⟩
    by_cases hv : tagV tag v ∈ existing
    · have hk0 : k ≠ 0 := by intro h; rw [h] at hfree; simp at hfree; exact hfree hv
      have hrec := ih (v + 1) ⟨k - 1, by omega, by
        have : v + 1 + (k - 1) = v + k := by omega
        rw [this]; exact hfree⟩
      have hunfold : versionSearchGo existing tag v (f + 1) =
          versionSearchGo existing tag (v + 1) f := by
        simp [versionSearchGo, check_tag_exists, hv]
      refine ⟨hunfold ▸ hrec.1, by omega, ?_⟩
      intro m hm1 hm2
      rw [hunfold] at hm2
      rcases Nat.eq_or_lt_of_le hm1 with heq | hlt
      · exact heq ▸ hv
      · exact hrec.2.2 m (by omega) hm2
    · have hunfold : versionSearchGo existing tag v (f + 1) = v := by
        simp [versionSearchGo, check_tag_exists, hv]
      rw [hunfold]
      exact ⟨hv, le_refl v, fun m hm1 hm2 => absurd (Nat.lt_of_le_of_lt hm1 hm2) (lt_irrefl v)⟩

/-- Claim C3 falls at the input tag "T" against the existing tags
{"T", "T-v2"}: the code returns "T-v3" (the numerically smallest free
version), yet "T-v10" is also a free candidate and is lexicographically
smaller, so the returned tag is not the lexicographically first candidate. -/
theorem C3_counterexample :
    get_unique_tag ["T", "T-v2"] "T" = "T-v3" ∧
    ¬ isLexFirstCandidate ["T", "T-v2"] "T" (get_unique_tag ["T", "T-v2"] "T") := by
  refine ⟨by decide, ?_⟩
  intro ⟨_, hmin⟩
  have h10 := hmin 10 (by omega) (by decide)
  revert h10
  decide

/-- Claim C3, amended: get_unique_tag returns the tag itself when it is not
among the existing tags, and otherwise returns tag-v{n} for the numerically
smallest n ≥ 2 whose candidate is not among the existing tags (rather than
the lexicographically first such string); the result is a deterministic pure
function of the tag and of the remote tag set. -/
theorem C3_amended_unique_tag (existing : List String) (tag : String) :
    (tag ∉ existing → get_unique_tag existing tag = tag) ∧
    (tag ∈ existing →
      ∃ n, 2 ≤ n ∧ get_unique_tag existing tag = tagV tag n ∧
        tagV tag n ∉ existing ∧
        ∀ m, 2 ≤ m → m < n → tagV tag m ∈ existing) := by
  constructor
  · intro h
    simp [get_unique_tag, check_tag_exists, h]
  · intro h
    obtain ⟨k, hk, hfree⟩ := exists_free_version existing tag 2
    have hspec := versionSearchGo_spec existing tag (existing.length + 1) 2
      ⟨k, by omega, hfree⟩
    refine ⟨versionSearchGo existing tag 2 (existing.length + 1), hspec.2.1, ?_, hspec.1, ?_⟩
    · simp [get_unique_tag, check_tag_exists, h]
    · intro m hm1 hm2
      exact hspec.2.2 m hm1 hm2

/-- Witness for C3_amended_unique_tag at concrete inputs: "a" is free and is
returned unchanged; "T" collides with the remote state {"T", "T-v2"} and the
returned candidate is "T-v3" with n = 3, skipping only the occupied v2. -/
theorem C3_witness :
    get_unique_tag ["T", "T-v2"] "a" = "a" ∧
    ∃ n, 2 ≤ n ∧ get_unique_tag ["T", "T-v2"] "T" = tagV "T" n ∧
      tagV "T" n ∉ ["T", "T-v2"] ∧
      ∀ m, 2 ≤ m → m < n → tagV "T" m ∈ ["T", "T-v2"] :=
  ⟨(C3_amended_unique_tag ["T", "T-v2"] "a").1 (by decide),
   (C3_amended_unique_tag ["T", "T-v2"] "T").2 (by decide)⟩

theorem add_sha_files_eq_append (sel zips shas : List FileInfo) :
    add_sha_files sel zips shas = sel ++ shaExtras sel zips shas := by
  suffices h : ∀ (zl acc : List FileInfo), zl.foldl
      (fun result z =>
        if z ∈ sel then
          match get_matching_sha z shas with
          | some s => result ++ [s]
          | none => result
        else result) acc =
      acc ++ (zl.filter (fun z => decide (z ∈ sel))).filterMap (fun z => get_matching_sha z shas) by
    exact h zips sel
  intro zl
  induction zl with
  | nil => intro acc; simp
  | cons z rest ih =>
    intro acc
    by_cases hz : z ∈ sel
    · cases hms : get_matching_sha z shas with
      | some s => simp [List.foldl_cons, hz, hms, ih, List.filter_cons, List.filterMap_cons]
      | none => simp [List.foldl_cons, hz, hms, ih, List.filter_cons, List.filterMap_cons]
    · simp [List.foldl_cons, hz, ih, List.filter_cons]

theorem add_sha_files_nil (zips shas : List FileInfo) :
    add_sha_files [] zips shas = [] := by
  rw [add_sha_files_eq_append]
  simp [shaExtras]

theorem shaExtras_mem (sel zips shas : List FileInfo) (s : FileInfo) :
    s ∈ shaExtras sel zips shas →
    s ∈ shas ∧ ∃ z ∈ zips, z ∈ sel ∧ s.name = shaName z := by
  intro hs
  simp only [shaExtras, List.mem_filterMap, List.mem_filter] at hs
  obtain ⟨z, ⟨hz, hzsel⟩, hms⟩ := hs
  have hfind := List.find?_some hms
  have hmem := List.mem_of_find?_eq_some hms
  simp only [decide_eq_true_eq] at hfind hzsel
  exact ⟨hmem, z, hz, hzsel, hfind⟩

/-- Claim C10: the list returned by add_sha_files is exactly the input
selection, in its original order, followed by added files, and every added
file is a scanned checksum file matching a selected archive; the input list
is not mutated (the model is a pure function of the input, mirroring the
copy made at release.py line 139). -/
theorem C10_add_sha_files_extends (sel zips shas : List FileInfo) :
    add_sha_files sel zips shas = sel ++ shaExtras sel zips shas ∧
    ∀ s ∈ shaExtras sel zips shas,
      s ∈ shas ∧ ∃ z ∈ zips, z ∈ sel ∧ s.name = shaName z :=
  ⟨add_sha_files_eq_append sel zips shas, fun s hs => shaExtras_mem sel zips shas s hs⟩

/-- Witness for C10_add_sha_files_extends: one selected archive with a
matching checksum file on disk. -/
theorem C10_witness :
    add_sha_files [⟨"a.zip", 1⟩] [⟨"a.zip", 1⟩] [⟨"a.zip.sha256sum", 2⟩] =
      [⟨"a.zip", 1⟩] ++ shaExtras [⟨"a.zip", 1⟩] [⟨"a.zip", 1⟩] [⟨"a.zip.sha256sum", 2⟩] ∧
    (⟨"a.zip.sha256sum", 2⟩ : FileInfo) ∈ [(⟨"a.zip.sha256sum", 2⟩ : FileInfo)] ∧
    ∃ z ∈ [(⟨"a.zip", 1⟩ : FileInfo)], z ∈ [(⟨"a.zip", 1⟩ : FileInfo)] ∧
      (⟨"a.zip.sha256sum", 2⟩ : FileInfo).name = shaName z :=
  ⟨(C10_add_sha_files_extends _ _ _).1,
   (C10_add_sha_files_extends [⟨"a.zip", 1⟩] [⟨"a.zip", 1⟩] [⟨"a.zip.sha256sum", 2⟩]).2
     ⟨"a.zip.sha256sum", 2⟩ (by decide)⟩

theorem mem_shaExtras_of (sel zips shas : List FileInfo) (z s : FileInfo)
    (hz : z ∈ zips) (hsel : z ∈ sel) (hm : get_matching_sha z shas = some s) :
    s ∈ shaExtras sel zips shas := by
  simp only [shaExtras, List.mem_filterMap]
  exact ⟨z, List.mem_filter.2 ⟨hz, by simpa using hsel⟩, hm⟩

theorem select_plan_shape (zips imgs shas : List FileInfo) (c : SelChoice) (m : String) :
    ∃ sel, (select_files_for_release zips imgs shas c m).1 = add_sha_files sel zips shas := by
  cases c <;> exact ⟨_, rfl⟩

/-- Claim C2 falls when two archives with checksum files are selected: the
plan is the two archives followed by the two checksum files at the end, so
the first archive's checksum file (which exists and matches) does not appear
immediately after it. -/
theorem C2_counterexample :
    (select_files_for_release [⟨"a.zip", 1⟩, ⟨"b.zip", 2⟩] []
        [⟨"a.zip.sha256sum", 3⟩, ⟨"b.zip.sha256sum", 4⟩] SelChoice.allFiles "").1 =
      [⟨"a.zip", 1⟩, ⟨"b.zip", 2⟩, ⟨"a.zip.sha256sum", 3⟩, ⟨"b.zip.sha256sum", 4⟩] ∧
    get_matching_sha ⟨"a.zip", 1⟩ [⟨"a.zip.sha256sum", 3⟩, ⟨"b.zip.sha256sum", 4⟩] =
      some ⟨"a.zip.sha256sum", 3⟩ ∧
    immediatelyAfter
      (select_files_for_release [⟨"a.zip", 1⟩, ⟨"b.zip", 2⟩] []
        [⟨"a.zip.sha256sum", 3⟩, ⟨"b.zip.sha256sum", 4⟩] SelChoice.allFiles "").1
      ⟨"a.zip", 1⟩ ⟨"a.zip.sha256sum", 3⟩ = false := by
  decide

/-- Claim C2, amended: in the plan produced by the Selection Planner, the
matching checksum files of the selected archives are appended after the
whole selection, at the end of the list and in scanned-archive order, rather
than immediately after each archive; each selected archive whose checksum
file exists on disk does contribute it to that appended suffix. -/
theorem C2_amended_checksums_at_end (zips imgs shas : List FileInfo)
    (c : SelChoice) (m : String) :
    ∃ sel, (select_files_for_release zips imgs shas c m).1 =
        sel ++ shaExtras sel zips shas ∧
      ∀ z ∈ zips, z ∈ sel → ∀ s, get_matching_sha z shas = some s →
        s ∈ shaExtras sel zips shas := by
  obtain ⟨sel, hsel⟩ := select_plan_shape zips imgs shas c m
  exact ⟨sel, by rw [hsel, add_sha_files_eq_append],
    fun z hz hzsel s hm => mem_shaExtras_of sel zips shas z s hz hzsel hm⟩

/-- Witness for C2_amended_checksums_at_end at a concrete selection. -/
theorem C2_witness :
    ∃ sel, (select_files_for_release [⟨"a.zip", 1⟩] [] [⟨"a.zip.sha256sum", 2⟩]
        SelChoice.allFiles "").1 = sel ++ shaExtras sel [⟨"a.zip", 1⟩] [⟨"a.zip.sha256sum", 2⟩] ∧
      ∀ z ∈ [(⟨"a.zip", 1⟩ : FileInfo)], z ∈ sel →
        ∀ s, get_matching_sha z [⟨"a.zip.sha256sum", 2⟩] = some s →
          s ∈ shaExtras sel [⟨"a.zip", 1⟩] [⟨"a.zip.sha256sum", 2⟩] :=
  C2_amended_checksums_at_end [⟨"a.zip", 1⟩] [] [⟨"a.zip.sha256sum", 2⟩] SelChoice.allFiles ""

theorem sortedDedup_pairwise_lt (l : List Nat) :
    List.Pairwise (· < ·) (sortedDedup l) := by
  have hs : List.Sorted (· ≤ ·) (List.insertionSort (· ≤ ·) l.dedup) :=
    List.sorted_insertionSort _ _
  have hperm : (List.insertionSort (· ≤ ·) l.dedup).Perm l.dedup :=
    List.perm_insertionSort _ _
  have hnd : (List.insertionSort (· ≤ ·) l.dedup).Nodup :=
    hperm.nodup_iff.2 (List.nodup_dedup l)
  exact (hs.and hnd).imp (fun h => lt_of_le_of_ne h.1 h.2)

theorem mem_sortedDedup (l : List Nat) (i : Nat) : i ∈ sortedDedup l ↔ i ∈ l := by
  simp [sortedDedup, List.mem_insertionSort, List.mem_dedup]

theorem parseToken_lt (n : Nat) (tok : String) : ∀ i ∈ parseToken n tok, i < n := by
  intro i hi
  unfold parseToken at hi
  split at hi
  · split at hi
    · split at hi
      · split at hi
        · rename_i a b hcond
          rw [List.mem_range'] at hi
          obtain ⟨hc1, hc2, hc3⟩ := hcond
          omega
        · simp at hi
      · simp at hi
    · simp at hi
  · split at hi
    · rename_i v hv
      split at hi
      · rename_i hcond
        simp only [List.mem_singleton] at hi
        omega
      · simp at hi
    · simp at hi

theorem parseSelection_lt (n : Nat) (s : String) : ∀ i ∈ parseSelection n s, i < n := by
  intro i hi
  simp only [parseSelection, List.mem_flatten, List.mem_map] at hi
  obtain ⟨_, ⟨tok, _, rfl⟩, hmem⟩ := hi
  exact parseToken_lt n tok i hmem

/-- Claim C7: manual-selector parsing accepts space-separated 1-based
integers and inclusive start-end ranges; invalid or out-of-range tokens
contribute nothing (they are skipped with a warning, not fatally); the
resulting index set is deduplicated and strictly ascending, hence the
selected items come in original-list order; the example "1 3-4" over a
5-item list yields items 1, 3 and 4; an empty selector, or one with no
valid token, falls back to all archives plus all images. -/
theorem C7_manual_selector_spec (zips imgs shas : List FileInfo) (m : String) :
    (List.Pairwise (· < ·) (sortedDedup (parseSelection (zips ++ imgs).length m)) ∧
      ∀ i ∈ sortedDedup (parseSelection (zips ++ imgs).length m), i < (zips ++ imgs).length) ∧
    (strStrip m = "" →
      select_files_for_release zips imgs shas SelChoice.manual m =
        (add_sha_files (zips ++ imgs) zips shas, [Ev.menuAsk, Ev.menuAsk])) ∧
    (parseSelection (zips ++ imgs).length m = [] →
      select_files_for_release zips imgs shas SelChoice.manual m =
        (add_sha_files (zips ++ imgs) zips shas, [Ev.menuAsk, Ev.menuAsk])) ∧
    (select_files_for_release
        [⟨"f1", 1⟩, ⟨"f2", 2⟩, ⟨"f3", 3⟩, ⟨"f4", 4⟩, ⟨"f5", 5⟩] [] []
        SelChoice.manual "1 3-4").1 = [⟨"f1", 1⟩, ⟨"f3", 3⟩, ⟨"f4", 4⟩] := by
  refine ⟨⟨sortedDedup_pairwise_lt _, ?_⟩, ?_, ?_, by decide⟩
  · intro i hi
    exact parseSelection_lt _ m i ((mem_sortedDedup _ i).1 hi)
  · intro hempty
    simp [select_files_for_release, hempty]
  · intro hnone
    by_cases hstrip : strStrip m = ""
    · simp [select_files_for_release, hstrip]
    · have hsd : sortedDedup (parseSelection (zips ++ imgs).length m) = [] := by
        rw [hnone]; rfl
      simp only [select_files_for_release, if_neg hstrip, hsd, List.filterMap_nil]
      simp

/-- Witness for C7_manual_selector_spec on a concrete list and selector. -/
theorem C7_witness :
    select_files_for_release [⟨"a.zip", 1⟩] [] [] SelChoice.manual " " =
      (add_sha_files ([⟨"a.zip", 1⟩] ++ []) [⟨"a.zip", 1⟩] [], [Ev.menuAsk, Ev.menuAsk]) ∧
    select_files_for_release [⟨"a.zip", 1⟩] [] [] SelChoice.manual "oops" =
      (add_sha_files ([⟨"a.zip", 1⟩] ++ []) [⟨"a.zip", 1⟩] [], [Ev.menuAsk, Ev.menuAsk]) :=
  ⟨(C7_manual_selector_spec [⟨"a.zip", 1⟩] [] [] " ").2.1 (by decide),
   (C7_manual_selector_spec [⟨"a.zip", 1⟩] [] [] "oops").2.2.1 (by decide)⟩

theorem goAttempts_first_success (up : Nat → CmdResult) (h : (up 1).code = 0) :
    goAttempts up 1 3 = (1, true) := by
  simp [goAttempts, h]

theorem goAttempts_all_fail (up : Nat → CmdResult)
    (h1 : (up 1).code ≠ 0) (h2 : (up 2).code ≠ 0) (h3 : (up 3).code ≠ 0) :
    goAttempts up 1 3 = (3, false) := by
  simp [goAttempts, h1, h2, h3]

theorem uploadLoopExisting_all_success (up : Nat → Nat → CmdResult) :
    ∀ (files : List FileInfo) (i acc : Nat),
      (∀ j, j < files.length → (up (i + j) 1).code = 0) →
      uploadLoopExisting up files i acc =
        { ok := true, totalUploaded := acc + totalSizeOf files,
          invocations := List.replicate files.length 1,
          events := List.replicate files.length Ev.releaseUpload } := by
  intro files
  induction files with
  | nil => intro i acc h; simp [uploadLoopExisting, totalSizeOf]
  | cons f fs ih =>
    intro i acc h
    have h0 : (up i 1).code = 0 := by simpa using h 0 (by simp)
    have hshift : ∀ j, j < fs.length → (up (i + 1 + j) 1).code = 0 := by
      intro j hj
      have h' := h (j + 1) (by simpa using Nat.succ_lt_succ hj)
      have he : i + (j + 1) = i + 1 + j := by omega
      rwa [he] at h'
    have hrest := ih (i + 1) (acc + f.size) hshift
    simp [uploadLoopExisting, goAttempts_first_success _ h0, hrest, totalSizeOf,
      List.replicate_succ]
    omega

theorem uploadLoopExisting_halts (up : Nat → Nat → CmdResult) :
    ∀ (pre : List FileInfo) (f : FileInfo) (post : List FileInfo) (i acc : Nat),
      (∀ j, j < pre.length → (up (i + j) 1).code = 0) →
      (up (i + pre.length) 1).code ≠ 0 → (up (i + pre.length) 2).code ≠ 0 →
      (up (i + pre.length) 3).code ≠ 0 →
      uploadLoopExisting up (pre ++ f :: post) i acc =
        { ok := false, totalUploaded := acc + totalSizeOf pre,
          invocations := List.replicate pre.length 1 ++ [3],
          events := List.replicate (pre.length + 3) Ev.releaseUpload } := by
  intro pre
  induction pre with
  | nil =>
    intro f post i acc _ h1 h2 h3
    simp only [Nat.add_zero, List.length_nil] at h1 h2 h3
    simp [uploadLoopExisting, goAttempts_all_fail _ h1 h2 h3, totalSizeOf]
  | cons p ps ih =>
    intro f post i acc h h1 h2 h3
    have h0 : (up i 1).code = 0 := by simpa using h 0 (by simp)
    have hshift : ∀ j, j < ps.length → (up (i + 1 + j) 1).code = 0 := by
      intro j hj
      have h' := h (j + 1) (by simpa using Nat.succ_lt_succ hj)
      have he : i + (j + 1) = i + 1 + j := by omega
      rwa [he] at h'
    have he2 : i + (p :: ps).length = i + 1 + ps.length := by simp; omega
    rw [he2] at h1 h2 h3
    have hrest := ih f post (i + 1) (acc + p.size) hshift h1 h2 h3
    simp [uploadLoopExisting, goAttempts_first_success _ h0, hrest, totalSizeOf,
      List.replicate_succ]
    omega

theorem createFileGo_first_success (up : Nat → CmdResult) (size : Nat)
    (h : (up 1).code = 0) :
    createFileGo up size 1 0 3 = FileRes.okF 1 0 := by
  simp [createFileGo, h]

theorem createFileGo_fatal_first (up : Nat → CmdResult) (size : Nat)
    (h1 : (up 1).code ≠ 0) (hna : isAuthMsg (up 1).msg = false) :
    createFileGo up size 1 0 3 = FileRes.fatal (up 1).msg (up 1).code 1 0 := by
  simp [createFileGo, h1, hna]

theorem createFileGo_auth_then_success (up : Nat → CmdResult) (size : Nat)
    (h1 : (up 1).code ≠ 0) (ha : isAuthMsg (up 1).msg = true) (h2 : (up 2).code = 0) :
    createFileGo up size 1 0 3 = FileRes.okF 2 size := by
  simp [createFileGo, h1, ha, h2]

theorem createUploadLoop_all_success (up : Nat → Nat → CmdResult) :
    ∀ (files : List FileInfo) (i acc : Nat),
      (∀ j, j < files.length → (up (i + j) 1).code = 0) →
      createUploadLoop up files i acc =
        { totalUploaded := acc, invocations := List.replicate files.length 1,
          failed := none, events := List.replicate files.length Ev.releaseUpload } := by
  intro files
  induction files with
  | nil => intro i acc h; simp [createUploadLoop]
  | cons f fs ih =>
    intro i acc h
    have h0 : (up i 1).code = 0 := by simpa using h 0 (by simp)
    have hshift : ∀ j, j < fs.length → (up (i + 1 + j) 1).code = 0 := by
      intro j hj
      have h' := h (j + 1) (by simpa using Nat.succ_lt_succ hj)
      have he : i + (j + 1) = i + 1 + j := by omega
      rwa [he] at h'
    have hrest := ih (i + 1) (acc + 0) hshift
    simp only [Nat.add_zero] at hrest
    simp [createUploadLoop, createFileGo_first_success _ _ h0, hrest, List.replicate_succ]

theorem createUploadLoop_fatal (up : Nat → Nat → CmdResult) :
    ∀ (pre : List FileInfo) (f : FileInfo) (post : List FileInfo) (i acc : Nat),
      (∀ j, j < pre.length → (up (i + j) 1).code = 0) →
      (up (i + pre.length) 1).code ≠ 0 →
      isAuthMsg (up (i + pre.length) 1).msg = false →
      createUploadLoop up (pre ++ f :: post) i acc =
        { totalUploaded := acc,
          invocations := List.replicate pre.length 1 ++ [1],
          failed := some ((up (i + pre.length) 1).msg, (up (i + pre.length) 1).code),
          events := List.replicate (pre.length + 1) Ev.releaseUpload } := by
  intro pre
  induction pre with
  | nil =>
    intro f post i acc _ h1 hna
    simp only [Nat.add_zero, List.length_nil] at h1 hna
    simp [createUploadLoop, createFileGo_fatal_first _ _ h1 hna]
  | cons p ps ih =>
    intro f post i acc h h1 hna
    have h0 : (up i 1).code = 0 := by simpa using h 0 (by simp)
    have hshift : ∀ j, j < ps.length → (up (i + 1 + j) 1).code = 0 := by
      intro j hj
      have h' := h (j + 1) (by simpa using Nat.succ_lt_succ hj)
      have he : i + (j + 1) = i + 1 + j := by omega
      rwa [he] at h'
    have he2 : i + (p :: ps).length = i + 1 + ps.length := by simp; omega
    rw [he2] at h1 hna
    have hrest := ih f post (i + 1) (acc + 0) hshift h1 hna
    simp only [Nat.add_zero] at hrest
    rw [he2]
    simp [createUploadLoop, createFileGo_first_success _ _ h0, hrest, List.replicate_succ]

/-- Claim C1 falls on the upload-to-existing path: with a single file whose
upload fails with the message "boom" (which carries no authentication or
permission indicator), the code still makes three upload invocations for
the file before aborting, whereas the claim requires the operation to abort
immediately after the first attempt (one invocation). -/
theorem C1_counterexample :
    ¬ ((uploadLoopExisting (fun _ _ => ⟨1, "boom"⟩) [⟨"a.zip", 5⟩] 0 0).invocations = [1]) ∧
    (uploadLoopExisting (fun _ _ => ⟨1, "boom"⟩) [⟨"a.zip", 5⟩] 0 0).invocations = [3] ∧
    isAuthMsg "boom" = false := by
  decide

/-- Claim C1, amended: in the create-then-upload path, a failed upload
invocation is retried only when its message contains an authentication or
permission indicator, and a failure without such an indicator aborts the
whole operation immediately after that first attempt, leaving all later
files unattempted; in the upload-to-existing path, however, every failed
invocation is retried regardless of its message, up to three attempts per
file, and only after the third consecutive failure does the operation
abort, leaving all later files unattempted. -/
theorem C1_amended_retry_policy (pre : List FileInfo) (f : FileInfo) (post : List FileInfo)
    (createOutcome : CmdResult) (up : Nat → Nat → CmdResult)
    (hc : createOutcome.code = 0)
    (hpre : ∀ j, j < pre.length → (up j 1).code = 0)
    (hf1 : (up pre.length 1).code ≠ 0) :
    (isAuthMsg (up pre.length 1).msg = false →
      create_release_with_progress createOutcome (pre ++ f :: post) up =
        { retMsg := (up pre.length 1).msg, retCode := (up pre.length 1).code,
          totalUploaded := 0, invocations := List.replicate pre.length 1 ++ [1],
          reportedTotal := none,
          events := Ev.releaseCreate :: List.replicate (pre.length + 1) Ev.releaseUpload }) ∧
    (isAuthMsg (up pre.length 1).msg = true → (up pre.length 2).code = 0 →
      createFileGo (up pre.length) f.size 1 0 3 = FileRes.okF 2 f.size) ∧
    ((up pre.length 2).code ≠ 0 → (up pre.length 3).code ≠ 0 →
      uploadLoopExisting up (pre ++ f :: post) 0 0 =
        { ok := false, totalUploaded := totalSizeOf pre,
          invocations := List.replicate pre.length 1 ++ [3],
          events := List.replicate (pre.length + 3) Ev.releaseUpload }) := by
  refine ⟨?_, ?_, ?_⟩
  · intro hna
    have hloop := createUploadLoop_fatal up pre f post 0 0
      (by simpa using hpre) (by simpa using hf1) (by simpa using hna)
    simp [create_release_with_progress, hc, hloop]
  · intro ha h2
    exact createFileGo_auth_then_success _ _ hf1 ha h2
  · intro h2 h3
    simpa using uploadLoopExisting_halts up pre f post 0 0
      (by simpa using hpre) (by simpa using hf1) (by simpa using h2) (by simpa using h3)

/-- Witness for C1_amended_retry_policy: one file whose upload fails with a
message carrying no authentication indicator; the create path makes one
invocation and aborts, the existing path makes three. -/
theorem C1_witness :
    create_release_with_progress ⟨0, "created"⟩ [⟨"a.zip", 5⟩] (fun _ _ => ⟨1, "HTTP 404"⟩) =
      { retMsg := "HTTP 404", retCode := 1, totalUploaded := 0, invocations := [1],
        reportedTotal := none,
        events := Ev.releaseCreate :: List.replicate 1 Ev.releaseUpload } ∧
    uploadLoopExisting (fun _ _ => ⟨1, "HTTP 404"⟩) [⟨"a.zip", 5⟩] 0 0 =
      { ok := false, totalUploaded := 0, invocations := [3],
        events := List.replicate 3 Ev.releaseUpload } := by
  have h := C1_amended_retry_policy [] ⟨"a.zip", 5⟩ [] ⟨0, "created"⟩
    (fun _ _ => ⟨1, "HTTP 404"⟩) rfl (by intro j hj; simp at hj) (by decide)
  exact ⟨by simpa using h.1 (by decide), by simpa [totalSizeOf] using h.2.2 (by decide) (by decide)⟩

/-- Claim C4: in a run where every file upload succeeds on its first
attempt, the total reported at completion equals the sum of the input file
sizes, on both orchestration paths. On the upload-to-existing path the
running uploaded-bytes accumulator also reaches exactly that sum; on the
create path the completion report prints the precomputed total size (the
running accumulator is only touched by the authentication-retry branch and
stays 0 in an all-success run, as the model records faithfully). -/
theorem C4_all_success_totals (files : List FileInfo) (up : Nat → Nat → CmdResult)
    (existingTags : List String) (tag correction : String) (createOutcome : CmdResult)
    (hc : createOutcome.code = 0)
    (htag : tagLooksLikeFile tag = false)
    (hmem : tag ∈ existingTags)
    (hall : ∀ j, j < files.length → (up j 1).code = 0) :
    (upload_to_existing_release existingTags tag correction true files up).ret = true ∧
    (upload_to_existing_release existingTags tag correction true files up).loopRun =
      some { ok := true, totalUploaded := totalSizeOf files,
             invocations := List.replicate files.length 1,
             events := List.replicate files.length Ev.releaseUpload } ∧
    (upload_to_existing_release existingTags tag correction true files up).reportedTotal =
      some (totalSizeOf files) ∧
    create_release_with_progress createOutcome files up =
      { retMsg := "Success", retCode := 0, totalUploaded := 0,
        invocations := List.replicate files.length 1,
        reportedTotal := some (totalSizeOf files),
        events := Ev.releaseCreate :: List.replicate files.length Ev.releaseUpload } := by
  have hloop := uploadLoopExisting_all_success up files 0 0 (by simpa using hall)
  have hcl := createUploadLoop_all_success up files 0 0 (by simpa using hall)
  refine ⟨?_, ?_, ?_, ?_⟩
  · simp [upload_to_existing_release, htag, check_tag_exists, hmem, hloop]
  · simp [upload_to_existing_release, htag, check_tag_exists, hmem, hloop]
  · simp [upload_to_existing_release, htag, check_tag_exists, hmem, hloop]
  · simp [create_release_with_progress, hc, hcl]

/-- Witness for C4_all_success_totals: two files of sizes 5 and 7, every
upload succeeding on its first attempt; both paths report 12 bytes. -/
theorem C4_witness :
    (upload_to_existing_release ["t"] "t" "" true [⟨"a.zip", 5⟩, ⟨"b.img", 7⟩]
      (fun _ _ => ⟨0, "ok"⟩)).reportedTotal = some 12 ∧
    create_release_with_progress ⟨0, "created"⟩ [⟨"a.zip", 5⟩, ⟨"b.img", 7⟩]
      (fun _ _ => ⟨0, "ok"⟩) =
      { retMsg := "Success", retCode := 0, totalUploaded := 0,
        invocations := [1, 1], reportedTotal := some 12,
        events := [Ev.releaseCreate, Ev.releaseUpload, Ev.releaseUpload] } := by
  have h := C4_all_success_totals [⟨"a.zip", 5⟩, ⟨"b.img", 7⟩] (fun _ _ => ⟨0, "ok"⟩)
    ["t"] "t" "" ⟨0, "created"⟩ rfl (by decide) (by decide) (fun j hj => rfl)
  refine ⟨?_, ?_⟩
  · rw [h.2.2.1]; decide
  · rw [h.2.2.2]; decide

/-- Claim C6 falls because the combined fallback invocation is reached
whenever the first method returns a nonzero code: here creation of the
empty release object succeeds (exit code 0) and the first file upload then
fails with a non-authentication error, yet the fallback is still used. -/
theorem C6_counterexample :
    (runCreateFlow ⟨0, "created"⟩ ⟨0, "ok"⟩ [⟨"a.zip", 5⟩]
      (fun _ _ => ⟨1, "boom"⟩)).fallbackUsed = true ∧
    (⟨0, "created"⟩ : CmdResult).code = 0 := by
  decide

/-- Claim C6, amended: the single combined invocation is used as a fallback
whenever create_release_with_progress returns a nonzero code — not only
when creating the empty release object fails, but also when a file upload
fails mid-sequence after the release object was created; within the first
method a non-authentication failure at a file halts all remaining per-file
uploads (exactly one invocation for the failing file, none for later
files), and the fallback invocation then attaches every file of the plan
at once. -/
theorem C6_amended_fallback (createOutcome direct : CmdResult) (files : List FileInfo)
    (up : Nat → Nat → CmdResult) :
    ((runCreateFlow createOutcome direct files up).fallbackUsed = true ↔
      (create_release_with_progress createOutcome files up).retCode ≠ 0) ∧
    ((runCreateFlow createOutcome direct files up).fallbackUsed = true →
      (runCreateFlow createOutcome direct files up).directFiles = some files) ∧
    (∀ pre f post, files = pre ++ f :: post → createOutcome.code = 0 →
      (∀ j, j < pre.length → (up j 1).code = 0) →
      (up pre.length 1).code ≠ 0 → isAuthMsg (up pre.length 1).msg = false →
      (create_release_with_progress createOutcome files up).invocations =
        List.replicate pre.length 1 ++ [1]) := by
  refine ⟨?_, ?_, ?_⟩
  · by_cases hr : (create_release_with_progress createOutcome files up).retCode ≠ 0
    · simp [runCreateFlow, hr]
    · simp [runCreateFlow, hr]
  · intro hfb
    by_cases hr : (create_release_with_progress createOutcome files up).retCode ≠ 0
    · simp [runCreateFlow, hr]
    · simp [runCreateFlow, hr] at hfb
  · intro pre f post hf hc hpre h1 hna
    subst hf
    have hloop := createUploadLoop_fatal up pre f post 0 0
      (by simpa using hpre) (by simpa using h1) (by simpa using hna)
    simp [create_release_with_progress, hc, hloop]

/-- Witness for C6_amended_fallback: creation fails outright, so the first
method returns nonzero, the fallback is used and re-attaches the full plan. -/
theorem C6_witness :
    ((runCreateFlow ⟨1, "denied"⟩ ⟨0, "ok"⟩ [⟨"a.zip", 5⟩] (fun _ _ => ⟨0, "ok"⟩)).fallbackUsed = true ↔
      (create_release_with_progress ⟨1, "denied"⟩ [⟨"a.zip", 5⟩] (fun _ _ => ⟨0, "ok"⟩)).retCode ≠ 0) ∧
    (runCreateFlow ⟨1, "denied"⟩ ⟨0, "ok"⟩ [⟨"a.zip", 5⟩] (fun _ _ => ⟨0, "ok"⟩)).directFiles =
      some [⟨"a.zip", 5⟩] :=
  have h := C6_amended_fallback ⟨1, "denied"⟩ ⟨0, "ok"⟩ [⟨"a.zip", 5⟩] (fun _ _ => ⟨0, "ok"⟩)
  ⟨h.1, h.2.1 (by decide)⟩

theorem interactiveCreate_submitted (env : Env) (inp : InteractiveIn) (p : List FileInfo) :
    (interactiveCreate env inp).submitted = some p → p ≠ [] := by
  intro h
  simp only [interactiveCreate] at h
  split at h
  · simp at h
  · rename_i hne
    split at h
    · simp at h
      exact h ▸ hne
    · simp at h

theorem interactive_mode_submitted (env : Env) (inp : InteractiveIn) (p : List FileInfo) :
    (interactive_mode env inp).submitted = some p → p ≠ [] := by
  intro h
  simp only [interactive_mode] at h
  repeat' split at h
  all_goals simp at h
  all_goals first
    | (subst h; assumption)
    | exact interactiveCreate_submitted env inp p h

theorem flagBody_submitted (args : Args) (env : Env) (p : List FileInfo) :
    (flagBody args env).submitted = some p → p ≠ [] := by
  intro h
  simp only [flagBody] at h
  repeat' split at h
  all_goals simp at h
  all_goals (subst h; assumption)

/-- Claim C8: whenever an upload plan is handed to an orchestrator
invocation — on any path, interactive or flag-driven — that plan is
nonempty: an empty selection has already been rejected with exit code 1
before any release-creation or upload invocation is issued. -/
theorem C8_plan_nonempty (args : Args) (env : Env) (inp : InteractiveIn) (p : List FileInfo) :
    (main args env inp).submitted = some p → p ≠ [] := by
  intro h
  simp only [main] at h
  repeat' split at h
  all_goals simp at h
  all_goals first
    | exact interactive_mode_submitted env inp p h
    | exact flagBody_submitted args env p h

/-- Witness for C8_plan_nonempty: a flag-driven run that reaches the create
orchestrator submits the one-archive plan, which is nonempty. -/
theorem C8_witness : ([⟨"ax-1.0-20250101.zip", 5⟩] : List FileInfo) ≠ [] :=
  C8_plan_nonempty ⟨true, false, false, [], true, none⟩ happyEnv idleIn
    [⟨"ax-1.0-20250101.zip", 5⟩] (by decide)

/-- Claim C9: when the artifact scan finds no archive and no image files,
both front ends report the failure and abort with exit code 1; the event
trace shows no menu prompt and no remote operation beyond the two
environment checks that precede the scan (interactive mode additionally
shows its bare "Press Enter to continue" pause). -/
theorem C9_empty_scan_aborts (args : Args) (env : Env) (inp : InteractiveIn)
    (hz : env.zipFiles = []) (hi : env.imgFiles = [])
    (ha : env.authOk = true) (hr : env.repoOk = true) :
    (argsEmpty args = true → main args env inp =
      { exitCode := 1, events := [Ev.authCheck, Ev.repoCheck, Ev.pause],
        submitted := none, fallbackUsed := false }) ∧
    (argsEmpty args = false → main args env inp =
      { exitCode := 1, events := [Ev.authCheck, Ev.repoCheck],
        submitted := none, fallbackUsed := false }) := by
  constructor
  · intro hae
    simp [main, ha, hr, hae, interactive_mode, hz, hi]
  · intro hae
    simp [main, ha, hr, hae, flagBody, hz, hi]

/-- Witness for C9_empty_scan_aborts: an empty working directory, in
interactive mode and with the --all flag. -/
theorem C9_witness :
    main ⟨false, false, false, [], false, none⟩ emptyScanEnv idleIn =
      { exitCode := 1, events := [Ev.authCheck, Ev.repoCheck, Ev.pause],
        submitted := none, fallbackUsed := false } ∧
    main ⟨true, false, false, [], false, none⟩ emptyScanEnv idleIn =
      { exitCode := 1, events := [Ev.authCheck, Ev.repoCheck],
        submitted := none, fallbackUsed := false } :=
  ⟨(C9_empty_scan_aborts ⟨false, false, false, [], false, none⟩ emptyScanEnv idleIn
      rfl rfl rfl rfl).1 (by decide),
   (C9_empty_scan_aborts ⟨true, false, false, [], false, none⟩ emptyScanEnv idleIn
      rfl rfl rfl rfl).2 (by decide)⟩

/-- Claim C5 falls at the upload-to-existing confirmation prompt: with one
archive present and the target tag existing remotely, declining the
confirmation terminates the process with exit code 1, not 0 as claimed. -/
theorem C5_counterexample :
    (main ⟨false, false, false, [], false, some "t"⟩ declineEnv idleIn).exitCode = 1 ∧
    ¬ ((main ⟨false, false, false, [], false, some "t"⟩ declineEnv idleIn).exitCode = 0) := by
  decide

/-- Claim C5, amended: the process exits 0 on success, and declining the
confirmation prompt exits 0 in release-creation mode; but declining the
confirmation in upload-to-existing mode terminates with exit code 1
(reported as a failed upload); every unrecoverable failure — authentication,
repository access, no files found, empty selection, tag not found, upload
failure — exits 1. -/
theorem C5_amended_exit_codes (env : Env) (inp : InteractiveIn) (t : String) :
    (env.authOk = false → ∀ args, (main args env inp).exitCode = 1) ∧
    (env.authOk = true → env.repoOk = false → ∀ args, (main args env inp).exitCode = 1) ∧
    (env.authOk = true → env.repoOk = true → env.zipFiles = [] → env.imgFiles = [] →
      (main ⟨true, false, false, [], false, none⟩ env inp).exitCode = 1) ∧
    (env.authOk = true → env.repoOk = true → env.zipFiles ≠ [] → env.imgFiles = [] →
      (main ⟨false, true, false, [], false, none⟩ env inp).exitCode = 1) ∧
    (env.authOk = true → env.repoOk = true → ¬(env.zipFiles = [] ∧ env.imgFiles = []) →
      add_sha_files (env.zipFiles ++ env.imgFiles) env.zipFiles env.shaFiles ≠ [] →
      t ∉ env.existingTags →
      (main ⟨false, false, false, [], false, some t⟩ env inp).exitCode = 1) ∧
    (env.authOk = true → env.repoOk = true → ¬(env.zipFiles = [] ∧ env.imgFiles = []) →
      add_sha_files (env.zipFiles ++ env.imgFiles) env.zipFiles env.shaFiles ≠ [] →
      t ∈ env.existingTags → tagLooksLikeFile t = false → env.confirmAnswer = false →
      (main ⟨false, false, false, [], false, some t⟩ env inp).exitCode = 1) ∧
    (env.authOk = true → env.repoOk = true → ¬(env.zipFiles = [] ∧ env.imgFiles = []) →
      add_sha_files (env.zipFiles ++ env.imgFiles) env.zipFiles env.shaFiles ≠ [] →
      t ∈ env.existingTags → tagLooksLikeFile t = false → env.confirmAnswer = true →
      (main ⟨false, false, false, [], false, some t⟩ env inp).exitCode =
        if (uploadLoopExisting env.up
            (add_sha_files (env.zipFiles ++ env.imgFiles) env.zipFiles env.shaFiles) 0 0).ok
        then 0 else 1) ∧
    (∀ z zs tg, env.authOk = true → env.repoOk = true →
      add_sha_files (env.zipFiles ++ env.imgFiles) env.zipFiles env.shaFiles ≠ [] →
      env.zipFiles = z :: zs → extract_tag_from_zip z.name = some tg →
      env.confirmAnswer = false →
      (main ⟨true, false, false, [], false, none⟩ env inp).exitCode = 0) ∧
    (∀ z zs tg, env.authOk = true → env.repoOk = true →
      add_sha_files (env.zipFiles ++ env.imgFiles) env.zipFiles env.shaFiles ≠ [] →
      env.zipFiles = z :: zs → extract_tag_from_zip z.name = some tg →
      env.confirmAnswer = true →
      (main ⟨true, false, false, [], false, none⟩ env inp).exitCode =
        if (runCreateFlow env.createOutcome env.directOutcome
            (add_sha_files (env.zipFiles ++ env.imgFiles) env.zipFiles env.shaFiles)
            env.up).finalCode = 0
        then 0 else 1) := by
  refine ⟨?_, ?_, ?_, ?_, ?_, ?_, ?_, ?_, ?_⟩
  · intro ha args
    simp [main, ha]
  · intro ha hr args
    simp [main, ha, hr]
  · intro ha hr hz hi
    simp [main, ha, hr, argsEmpty, flagBody, hz, hi]
  · intro ha hr hz hi
    have hne : ¬(env.zipFiles = [] ∧ env.imgFiles = []) := fun hc => hz hc.1
    simp [main, ha, hr, argsEmpty, flagBody, hne, hi, add_sha_files_nil]
  · intro ha hr hne hplan hmem
    simp [main, ha, hr, argsEmpty, flagBody, hne, hplan, check_tag_exists, hmem]
  · intro ha hr hne hplan hmem htagf hconf
    simp [main, ha, hr, argsEmpty, flagBody, hne, hplan, check_tag_exists, hmem,
      upload_to_existing_release, htagf, hconf]
  · intro ha hr hne hplan hmem htagf hconf
    simp [main, ha, hr, argsEmpty, flagBody, hne, hplan, check_tag_exists, hmem,
      upload_to_existing_release, htagf, hconf]
  · intro z zs tg ha hr hplan hz hex hconf
    have hne : ¬(env.zipFiles = [] ∧ env.imgFiles = []) := by
      intro hcontra
      rw [hz] at hcontra
      simp at hcontra
    rw [hz] at hplan
    simp only [List.cons_append] at hplan
    simp [main, ha, hr, argsEmpty, flagBody, hne, hplan, hz, hex, hconf]
  · intro z zs tg ha hr hplan hz hex hconf
    have hne : ¬(env.zipFiles = [] ∧ env.imgFiles = []) := by
      intro hcontra
      rw [hz] at hcontra
      simp at hcontra
    rw [hz] at hplan
    simp only [List.cons_append] at hplan
    simp [main, ha, hr, argsEmpty, flagBody, hne, hplan, hz, hex, hconf]

/-- Witness for C5_amended_exit_codes: declining the confirmation exits 1 in
upload-to-existing mode but 0 in create mode, and requesting only image
files when none exist (an empty selection) exits 1. -/
theorem C5_witness :
    (main ⟨false, false, false, [], false, some "t"⟩ declineEnv idleIn).exitCode = 1 ∧
    (main ⟨true, false, false, [], false, none⟩ createDeclineEnv idleIn).exitCode = 0 ∧
    (main ⟨false, true, false, [], false, none⟩ declineEnv idleIn).exitCode = 1 :=
  ⟨(C5_amended_exit_codes declineEnv idleIn "t").2.2.2.2.2.1
    rfl rfl (by decide) (by decide) (by decide) (by decide) rfl,
   (C5_amended_exit_codes createDeclineEnv idleIn "t").2.2.2.2.2.2.2.1
    ⟨"ax-1.0-20250101.zip", 5⟩ [] "ax-1.0-20250101" rfl rfl (by decide) rfl (by decide) rfl,
   (C5_amended_exit_codes declineEnv idleIn "t").2.2.2.1 rfl rfl (by decide) rfl⟩

end Release
